import Mathlib

/-!
Shallow embedding of `update-orders.py`, a warframe.market client that
authenticates, lists items and orders, and periodically re-submits the
user's own orders to refresh their timestamps.

HTTP transport is modelled by passing the already-received response data
(status code, parsed JSON payload) as explicit arguments; the pure
computation each Python function performs on that data is translated
directly.  `requests`' `Response.raise_for_status` raises `HTTPError`
exactly when the status code is in [400, 600); this is modelled by
`raise_for_status`.  Timestamps (`datetime` values) are modelled by their
epoch value as an integer, which preserves ordering.
-/

/-- JSON values, as far as this client manipulates them (the script only
ever builds or reads strings, numbers, booleans and flat objects). -/
inductive Jval where
  | str (s : String)
  | num (n : Int)
  | bool (b : Bool)
  | obj (fields : List (String × Jval))
deriving Repr

/-- `Credentials` dataclass: the two declared fields (`request_headers`
is derived in `__post_init__` and is not a dataclass field, so
`dataclasses.asdict` does not include it). -/
structure Credentials where
  nickname : String
  auth_token : String
deriving DecidableEq, Repr

/-- The header set built in `Credentials.__post_init__`. -/
def Credentials.request_headers (c : Credentials) : List (String × String) :=
  [("Content-Type", "application/json; utf-8"),
   ("Accept", "application/json"),
   ("auth_type", "header"),
   ("platform", "pc"),
   ("language", "en"),
   ("Authorization", c.auth_token)]

/-- `Item` dataclass. -/
structure Item where
  id : String
  name : String
  url_name : String
deriving DecidableEq, Repr

/-- `Order` dataclass.  `last_update` is the parsed timestamp, modelled
as its epoch value (`datetime.timestamp()`), an integer. -/
structure Order where
  id : String
  type : String
  item : Item
  quantity : Int
  price : Int
  creator : String
  last_update : Int
deriving DecidableEq, Repr

/-- `Response.raise_for_status` from `requests`: raises `HTTPError` for
4xx client errors and 5xx server errors, returns normally otherwise. -/
def raise_for_status (status : Nat) : Except String Unit :=
  if 400 ≤ status ∧ status < 600 then .error "HTTPError" else .ok ()

/-! ## Raw API payloads -/

/-- The `user` sub-object of an entry of `GET /items/{url_name}/orders`. -/
structure RawUser where
  ingame_name : String
  status : String
deriving DecidableEq, Repr

/-- One entry of the `payload.orders` array of
`GET /items/{url_name}/orders`. -/
structure RawItemOrder where
  id : String
  order_type : String
  platform : String
  user : RawUser
  quantity : Int
  platinum : Int
  last_update : Int
deriving DecidableEq, Repr

/-- The `item` sub-object of a "my orders" entry (fields the script reads:
`id`, `en.item_name`, `url_name`). -/
structure RawOrderItem where
  id : String
  item_name : String
  url_name : String
deriving DecidableEq, Repr

/-- One entry of `payload.sell_orders` / `payload.buy_orders` of
`GET /profile/{name}/orders`. -/
structure RawMyOrder where
  id : String
  order_type : String
  item : RawOrderItem
  quantity : Int
  platinum : Int
  visible : Bool
  last_update : Int
deriving DecidableEq, Repr

/-- The `payload` of `GET /profile/{name}/orders`. -/
structure MyOrdersPayload where
  sell_orders : List RawMyOrder
  buy_orders : List RawMyOrder
deriving DecidableEq, Repr

/-- One entry of `payload.items` of `GET /items`. -/
structure RawCatalogItem where
  id : String
  item_name : String
  url_name : String
deriving DecidableEq, Repr

/-! ## get_my_orders -/

/-- The local `order_from_dict` inside `get_my_orders`: the creator is
`creds.nickname`, every other field comes from the entry. -/
def order_from_my_dict (nickname : String) (d : RawMyOrder) : Order :=
  { id := d.id, type := d.order_type,
    item := { id := d.item.id, name := d.item.item_name, url_name := d.item.url_name },
    quantity := d.quantity, price := d.platinum,
    creator := nickname, last_update := d.last_update }

/-- `get_my_orders`, after the HTTP exchange: the list comprehension
`[order_from_dict(o) for o in (payload["sell_orders"] + payload["buy_orders"]) if o["visible"]]`. -/
def get_my_orders (creds : Credentials) (payload : MyOrdersPayload) : List Order :=
  (payload.sell_orders ++ payload.buy_orders).foldr
    (fun o acc => if o.visible then order_from_my_dict creds.nickname o :: acc else acc) []

/-! ## get_orders_for_item -/

/-- The local `order_from_dict` inside `get_orders_for_item`: the item is
the `Item` argument, the creator is the entry's `user.ingame_name`. -/
def order_from_item_dict (item : Item) (d : RawItemOrder) : Order :=
  { id := d.id, type := d.order_type, item := item,
    quantity := d.quantity, price := d.platinum,
    creator := d.user.ingame_name, last_update := d.last_update }

/-- The `sorted` key for the `buy` bucket, `(-o.price, -o.last_update.timestamp())`,
compared as Python compares tuples: lexicographically. -/
def buy_le (a b : Order) : Bool :=
  decide (-a.price < -b.price ∨ (-a.price = -b.price ∧ -a.last_update ≤ -b.last_update))

/-- The `sorted` key for the `sell` bucket, `(o.price, -o.last_update.timestamp())`,
compared lexicographically. -/
def sell_le (a b : Order) : Bool :=
  decide (a.price < b.price ∨ (a.price = b.price ∧ -a.last_update ≤ -b.last_update))

/-- `get_orders_for_item`, after the HTTP exchange: filter to
`platform == "pc"` and `user.status == "ingame"`, build the dict literal
with the `"buy"` and `"sell"` buckets, each sorted by its key. -/
def get_orders_for_item (item : Item) (raw : List RawItemOrder) :
    List (String × List Order) :=
  let orders := raw.filter (fun o => o.platform == "pc" && o.user.status == "ingame")
  [("buy",
    (((orders.filter (fun e => e.order_type == "buy")).map
        (order_from_item_dict item)).mergeSort buy_le)),
   ("sell",
    (((orders.filter (fun e => e.order_type == "sell")).map
        (order_from_item_dict item)).mergeSort sell_le))]

/-- The `"buy"` bucket of the returned dict. -/
def book_buy (item : Item) (raw : List RawItemOrder) : List Order :=
  (((get_orders_for_item item raw).lookup "buy").getD [])

/-- The `"sell"` bucket of the returned dict. -/
def book_sell (item : Item) (raw : List RawItemOrder) : List Order :=
  (((get_orders_for_item item raw).lookup "sell").getD [])

/-! ## get_creds -/

/-- The parts of the `POST /auth/signin` response that `get_creds` reads:
the status code, `payload.user.ingame_name` from the JSON body, and the
`Authorization` response header. -/
structure SigninResponse where
  status : Nat
  ingame_name : String
  authorization : String
deriving DecidableEq, Repr

/-- `get_creds`.  The cache file is `none` when `os.path.exists` is false,
`some content` otherwise; `from_json` models `Credentials.from_json`
(returning `none` on any exception in the `try` block).  The email and
password prompts only feed the request body of the sign-in call, which is
part of the modelled-away transport; `resp` is that call's response.
The result pairs the returned `Credentials` with the number of sign-in
requests performed. -/
def get_creds {α : Type} (from_json : α → Option Credentials)
    (file : Option α) (resp : SigninResponse) : Except String (Credentials × Nat) :=
  let interactive : Except String (Credentials × Nat) :=
    match raise_for_status resp.status with
    | .error e => .error e
    | .ok _ => .ok ({ nickname := resp.ingame_name, auth_token := resp.authorization }, 1)
  match file with
  | some content =>
    match from_json content with
    | some user => .ok (user, 0)
    | none => interactive
  | none => interactive

/-- The value `get_creds` writes to the cache file after a fresh sign-in:
`json.dumps(dataclasses.asdict(creds), sort_keys=True, indent=4)`.
`asdict` yields the declared fields (`nickname`, `auth_token`);
`sort_keys=True` emits `auth_token` first.  The rendering of this object
to the pretty-printed text (and the inverse parse) is done by the `json`
and `dataclass_wizard` libraries, so serialization is modelled at the
JSON-value level. -/
def creds_as_dict (c : Credentials) : List (String × Jval) :=
  [("auth_token", .str c.auth_token), ("nickname", .str c.nickname)]

/-- Modelled from the spec: `Credentials.from_json` is provided by the
third-party `dataclass_wizard` library, whose code is not part of this
repository.  Per the spec the cache file holds the JSON object
`\x7bnickname, auth_token\x7d`; deserialization reads those two string
fields of the object. -/
def creds_from_json (j : Jval) : Option Credentials :=
  match j with
  | .obj fields =>
      match fields.lookup "nickname", fields.lookup "auth_token" with
      | some (.str n), some (.str t) => some { nickname := n, auth_token := t }
      | _, _ => none
  | _ => none

/-! ## get_items -/

/-- One assignment `m[k] = v` with Python `dict` semantics: if the key is
present its value is replaced in place (insertion position kept),
otherwise the pair is appended. -/
def dict_insert (m : List (String × Item)) (k : String) (v : Item) :
    List (String × Item) :=
  match m with
  | [] => [(k, v)]
  | (k', v') :: rest =>
      if k' == k then (k', v) :: rest else (k', v') :: dict_insert rest k v

/-- `get_items`, after the HTTP exchange: the dict comprehension
`\x7bi["item_name"]: Item(i["id"], i["item_name"], i["url_name"]) for i in payload["items"]\x7d`. -/
def get_items (raw : List RawCatalogItem) : List (String × Item) :=
  raw.foldl
    (fun m i =>
      dict_insert m i.item_name { id := i.id, name := i.item_name, url_name := i.url_name })
    []

/-! ## update_my_order and the refresh loop -/

/-- `update_my_order`, after the HTTP exchange: the PUT body it sends and
the outcome of `raise_for_status` on the response's status code. -/
def update_my_order (order : Order) (status : Nat) :
    List (String × Jval) × Except String Unit :=
  ([("platinum", .num order.price),
    ("quantity", .num order.quantity),
    ("visible", .bool true)],
   raise_for_status status)

/-- One pass of the `for order in my_orders` loop in `main`:
each order's update is attempted inside `try: ... except Exception: pass`,
so the outcome is recorded and the loop continues either way.
`status_of` gives the status code the server answers for each order's
update request.  Returns the attempts in order, with their outcomes. -/
def refresh_pass (status_of : Order → Nat) :
    List Order → List (Order × Except String Unit)
  | [] => []
  | o :: rest =>
      ((o, (update_my_order o (status_of o)).2)) :: refresh_pass status_of rest

/-! ## Helper lemmas -/

/-- The comprehension in `get_my_orders` is the filter of the concatenated
collections, mapped through `order_from_dict`. -/
lemma get_my_orders_eq (creds : Credentials) (p : MyOrdersPayload) :
    get_my_orders creds p =
      ((p.sell_orders ++ p.buy_orders).filter (fun o => o.visible)).map
        (order_from_my_dict creds.nickname) := by
  unfold get_my_orders
  induction p.sell_orders ++ p.buy_orders with
  | nil => rfl
  | cons o rest ih => by_cases h : o.visible <;> simp [h, ih]

/-! ## C2, C9, C3, C4 -/

/-- C2: `get_my_orders` returns exactly the entries whose `visible` field
is true, in the order of `sell_orders ++ buy_orders` with the server's
relative order inside each collection preserved. -/
theorem get_my_orders_visible_filter (creds : Credentials) (p : MyOrdersPayload) :
    get_my_orders creds p =
      ((p.sell_orders ++ p.buy_orders).filter (fun o => o.visible)).map
        (order_from_my_dict creds.nickname) :=
  get_my_orders_eq creds p

/-- C9: every `Order` returned by `get_my_orders` has its `creator` field
set to the authenticated user's nickname from the `Credentials` argument,
never to a name from the response payload. -/
theorem get_my_orders_creator_is_nickname (creds : Credentials) (p : MyOrdersPayload) :
    ∀ o ∈ get_my_orders creds p, o.creator = creds.nickname := by
  intro o ho
  rw [get_my_orders_eq] at ho
  obtain ⟨e, _, rfl⟩ := List.mem_map.mp ho
  rfl

/-- C9 witness: the creator of a concrete fetched order is the nickname of
the credentials used. -/
theorem get_my_orders_creator_is_nickname_witness :
    (order_from_my_dict "n" ⟨"S", "sell", ⟨"i1", "A", "a"⟩, 1, 30, true, 0⟩).creator = "n" :=
  get_my_orders_creator_is_nickname ⟨"n", "t"⟩
    ⟨[⟨"S", "sell", ⟨"i1", "A", "a"⟩, 1, 30, true, 0⟩], []⟩
    (order_from_my_dict "n" ⟨"S", "sell", ⟨"i1", "A", "a"⟩, 1, 30, true, 0⟩) (by decide)

/-- A "my orders" entry that sits in the `sell_orders` collection but whose
`order_type` field says `"buy"`. -/
def mislabeled_entry : RawMyOrder :=
  { id := "A", order_type := "buy",
    item := { id := "i0", item_name := "Ember Prime Set", url_name := "ember_prime_set" },
    quantity := 1, platinum := 50, visible := true, last_update := 0 }

/-- A payload whose only entry is `mislabeled_entry`, in `sell_orders`. -/
def mislabeled_payload : MyOrdersPayload :=
  { sell_orders := [mislabeled_entry], buy_orders := [] }

/-- C3 counterexample: the `Order.type` of a parsed order comes from the
entry's `order_type` field, not from the collection it sat in: a
`sell_orders` entry whose `order_type` is `"buy"` yields an `Order` of
type `"buy"` (here `buy_orders` is empty, so the produced order came from
`sell_orders`). -/
theorem get_my_orders_type_not_from_collection :
    mislabeled_payload.buy_orders = [] ∧
    (get_my_orders { nickname := "n", auth_token := "t" } mislabeled_payload).map
        Order.type = ["buy"] :=
  ⟨rfl, rfl⟩

/-- C3 amended: an `Order`'s `type` is the entry's `order_type` field;
provided the server reports `order_type = "sell"` on every `sell_orders`
entry and `"buy"` on every `buy_orders` entry, the result is the visible
sell entries (all of type `"sell"`) followed by the visible buy entries
(all of type `"buy"`), so `type` partitions the two collections. -/
theorem get_my_orders_type_partitions (creds : Credentials) (p : MyOrdersPayload)
    (hs : ∀ e ∈ p.sell_orders, e.order_type = "sell")
    (hb : ∀ e ∈ p.buy_orders, e.order_type = "buy") :
    get_my_orders creds p =
      (p.sell_orders.filter (fun o => o.visible)).map (order_from_my_dict creds.nickname)
        ++ (p.buy_orders.filter (fun o => o.visible)).map (order_from_my_dict creds.nickname)
    ∧ (∀ o ∈ (p.sell_orders.filter (fun o => o.visible)).map
          (order_from_my_dict creds.nickname), o.type = "sell")
    ∧ (∀ o ∈ (p.buy_orders.filter (fun o => o.visible)).map
          (order_from_my_dict creds.nickname), o.type = "buy") := by
  refine ⟨by rw [get_my_orders_eq]; simp, ?_, ?_⟩
  all_goals
    intro o ho
    obtain ⟨e, he, rfl⟩ := List.mem_map.mp ho
    rw [List.mem_filter] at he
  · exact hs e he.1
  · exact hb e he.1

/-- A consistently labelled visible sell entry. -/
def sell_entry_ok : RawMyOrder :=
  ⟨"S", "sell", ⟨"i1", "A", "a"⟩, 1, 30, true, 0⟩

/-- A consistently labelled visible buy entry. -/
def buy_entry_ok : RawMyOrder :=
  ⟨"B", "buy", ⟨"i2", "C", "c"⟩, 2, 10, true, 1⟩

/-- A payload with one visible, consistently labelled order per collection. -/
def well_labeled_payload : MyOrdersPayload :=
  ⟨[sell_entry_ok], [buy_entry_ok]⟩

/-- C3 amended, witness at `well_labeled_payload`. -/
theorem get_my_orders_type_partitions_witness :
    (get_my_orders ⟨"n", "t"⟩ well_labeled_payload).map Order.type = ["sell", "buy"] := by
  have h := get_my_orders_type_partitions ⟨"n", "t"⟩ well_labeled_payload
    (by intro e he; simp [well_labeled_payload] at he; rw [he]; rfl)
    (by intro e he; simp [well_labeled_payload] at he; rw [he]; rfl)
  rw [h.1]
  rfl

/-- C4: every order in the fetched list gets its update attempted, in
order, whatever status codes (including HTTP errors) the per-order update
requests come back with: the `except` swallows the error and the loop
reaches the next order. -/
theorem refresh_pass_attempts_every_order (status_of : Order → Nat) (l : List Order) :
    (refresh_pass status_of l).map Prod.fst = l
    ∧ ∀ o ∈ l, (o, (update_my_order o (status_of o)).2) ∈ refresh_pass status_of l := by
  induction l with
  | nil => simp [refresh_pass]
  | cons o rest ih =>
      refine ⟨by simp [refresh_pass, ih.1], ?_⟩
      intro x hx
      rcases List.mem_cons.mp hx with h | h
      · subst h; exact List.mem_cons_self ..
      · exact List.mem_cons_of_mem _ (ih.2 x h)

/-! ## C7, C5, C6 -/

/-- A concrete order used in counterexamples. -/
def order0 : Order :=
  ⟨"o1", "sell", ⟨"i", "X", "x"⟩, 1, 50, "n", 0⟩

/-- C7 counterexample: a 304 response is not 2xx, yet `update_my_order`
returns normally — `raise_for_status` raises only for statuses in
[400, 600), not on every non-2xx status. -/
theorem update_my_order_304_no_raise :
    ¬(200 ≤ 304 ∧ 304 < 300) ∧ (update_my_order order0 304).2 = Except.ok () :=
  ⟨by decide, rfl⟩

/-- C7 amended: the PUT body is exactly platinum = the order's price,
quantity = the order's quantity, and visible = true (no other field), and
the call raises exactly on a 4xx/5xx status, returning normally on any
other status (including non-2xx statuses outside [400, 600)). -/
theorem update_my_order_spec (order : Order) (status : Nat) :
    (update_my_order order status).1 =
      [("platinum", Jval.num order.price), ("quantity", Jval.num order.quantity),
        ("visible", Jval.bool true)]
    ∧ ((update_my_order order status).2 = Except.error "HTTPError" ↔
        400 ≤ status ∧ status < 600)
    ∧ ((update_my_order order status).2 = Except.ok () ↔
        ¬(400 ≤ status ∧ status < 600)) := by
  refine ⟨rfl, ?_, ?_⟩ <;>
    simp only [update_my_order, raise_for_status] <;> split <;> simp_all

/-- A 304 sign-in response. -/
def resp304 : SigninResponse := ⟨304, "n", "JWT t"⟩

/-- C5 counterexample: with the cache file absent and a 304 (non-2xx)
sign-in response, `get_creds` does not propagate an error but returns
credentials built from the response: `raise_for_status` raises only for
4xx/5xx. -/
theorem get_creds_304_not_fatal :
    ¬(200 ≤ 304 ∧ 304 < 300) ∧
      get_creds (fun j => creds_from_json j) none resp304 =
        Except.ok (⟨"n", "JWT t"⟩, 1) :=
  ⟨by decide, rfl⟩

/-- C5 amended: if the cache file is absent, or parsing it fails, the
sign-in path runs exactly once and the returned credentials are built
solely from the sign-in response (nothing from the file's content); a
4xx/5xx sign-in response propagates as a fatal error, while other
statuses (including non-2xx ones outside [400, 600)) do not raise. -/
theorem get_creds_fallthrough {α : Type} (from_json : α → Option Credentials)
    (file : Option α) (resp : SigninResponse)
    (h : file = none ∨ ∃ c, file = some c ∧ from_json c = none) :
    (¬(400 ≤ resp.status ∧ resp.status < 600) →
        get_creds from_json file resp =
          Except.ok (⟨resp.ingame_name, resp.authorization⟩, 1))
    ∧ ((400 ≤ resp.status ∧ resp.status < 600) →
        get_creds from_json file resp = Except.error "HTTPError") := by
  rcases h with rfl | ⟨c, rfl, hc⟩
  · constructor <;> intro hs <;> simp [get_creds, raise_for_status, hs]
  · constructor <;> intro hs <;> simp [get_creds, raise_for_status, hc, hs]

/-- A 200 sign-in response. -/
def respW : SigninResponse := ⟨200, "nick", "JWT tok"⟩

/-- C5 amended, witness: a corrupt cache file (parser yields nothing) with
a 200 sign-in response. -/
theorem get_creds_fallthrough_witness :
    get_creds (fun _ : String => (none : Option Credentials)) (some "corrupt") respW =
      Except.ok (⟨"nick", "JWT tok"⟩, 1) :=
  (get_creds_fallthrough (fun _ : String => (none : Option Credentials))
    (some "corrupt") respW (Or.inr ⟨"corrupt", rfl, rfl⟩)).1 (by decide)

/-- C6: writing any `Credentials` in the cache-file format (key-sorted
JSON object of auth_token and nickname) and reloading it through the
cached-file path of `get_creds` reproduces the same nickname/auth_token
pair, without invoking sign-in. -/
theorem creds_cache_roundtrip (c : Credentials) (resp : SigninResponse) :
    get_creds creds_from_json (some (Jval.obj (creds_as_dict c))) resp =
      Except.ok (c, 0) := rfl

/-! ## C8 -/

/-- Looking a key up after one Python-dict assignment: the assigned key
now maps to the new value, every other key is untouched. -/
lemma lookup_dict_insert (m : List (String × Item)) (k k' : String) (v : Item) :
    (dict_insert m k v).lookup k' = if k' = k then some v else m.lookup k' := by
  induction m with
  | nil =>
      by_cases h : k' = k
      · simp [dict_insert, List.lookup, h]
      · have h' : (k' == k) = false := beq_eq_false_iff_ne.mpr h
        simp [dict_insert, List.lookup, h', h]
  | cons p rest ih =>
      obtain ⟨k0, v0⟩ := p
      by_cases h0 : k0 = k
      · subst h0
        by_cases h1 : k' = k0
        · simp [dict_insert, List.lookup, h1]
        · have h1' : (k' == k0) = false := beq_eq_false_iff_ne.mpr h1
          simp [dict_insert, List.lookup, h1', h1]
      · have h0' : (k0 == k) = false := beq_eq_false_iff_ne.mpr h0
        by_cases h1 : k' = k0
        · have h2 : ¬k' = k := fun hh => h0 (h1.symm.trans hh)
          have h2' : (k' == k) = false := beq_eq_false_iff_ne.mpr h2
          simp [dict_insert, List.lookup, h0, h0', h1, h2, h2', ih]
        · have h1' : (k' == k0) = false := beq_eq_false_iff_ne.mpr h1
          simp [dict_insert, List.lookup, h0', h1', h1, ih]

/-- The dict comprehension's fold, over any starting dict: the result of a
lookup is the `Item` of the last entry carrying that name, the starting
dict deciding only names no entry carries. -/
lemma lookup_get_items_foldl (raw : List RawCatalogItem)
    (m : List (String × Item)) (n : String) :
    (raw.foldl
        (fun m i =>
          dict_insert m i.item_name { id := i.id, name := i.item_name, url_name := i.url_name })
        m).lookup n =
      ((raw.reverse.find? (fun i => i.item_name == n)).map
        (fun i => Item.mk i.id i.item_name i.url_name)).or (m.lookup n) := by
  induction raw generalizing m with
  | nil => simp
  | cons i rest ih =>
      rw [List.foldl_cons, ih, List.reverse_cons, List.find?_append, lookup_dict_insert]
      cases hf : rest.reverse.find? (fun i => i.item_name == n) with
      | some j => simp [Option.or]
      | none =>
          by_cases hn : n = i.item_name
          · have hb : (i.item_name == n) = true := beq_iff_eq.mpr hn.symm
            simp [List.find?, hb, Option.or, hn]
          · have hb : (i.item_name == n) = false :=
              beq_eq_false_iff_ne.mpr (fun hh => hn hh.symm)
            simp [List.find?, hb, Option.or, hn]

/-- C8: `get_items` maps each display name to the `Item` built from the id,
name and url_name of the *last* catalog entry carrying that name
(last-write-wins; names carried by no entry are absent). -/
theorem get_items_last_write_wins (raw : List RawCatalogItem) (n : String) :
    (get_items raw).lookup n =
      (raw.reverse.find? (fun i => i.item_name == n)).map
        (fun i => Item.mk i.id i.item_name i.url_name) := by
  have h := lookup_get_items_foldl raw [] n
  simpa [get_items, List.lookup] using h

/-! ## C1, C10 -/

/-- The `"buy"` bucket, unfolded. -/
lemma book_buy_eq (item : Item) (raw : List RawItemOrder) :
    book_buy item raw =
      (((raw.filter (fun o => o.platform == "pc" && o.user.status == "ingame")).filter
          (fun e => e.order_type == "buy")).map
        (order_from_item_dict item)).mergeSort buy_le := rfl

/-- The `"sell"` bucket, unfolded. -/
lemma book_sell_eq (item : Item) (raw : List RawItemOrder) :
    book_sell item raw =
      (((raw.filter (fun o => o.platform == "pc" && o.user.status == "ingame")).filter
          (fun e => e.order_type == "sell")).map
        (order_from_item_dict item)).mergeSort sell_le := rfl

lemma buy_le_trans : ∀ a b c : Order, buy_le a b → buy_le b c → buy_le a c := by
  intro a b c hab hbc
  simp only [buy_le, decide_eq_true_eq] at *
  omega

lemma buy_le_total : ∀ a b : Order, buy_le a b || buy_le b a := by
  intro a b
  simp only [buy_le, Bool.or_eq_true, decide_eq_true_eq]
  omega

lemma sell_le_trans : ∀ a b c : Order, sell_le a b → sell_le b c → sell_le a c := by
  intro a b c hab hbc
  simp only [sell_le, decide_eq_true_eq] at *
  omega

lemma sell_le_total : ∀ a b : Order, sell_le a b || sell_le b a := by
  intro a b
  simp only [sell_le, Bool.or_eq_true, decide_eq_true_eq]
  omega

/-- Provenance of a `"buy"` bucket member. -/
lemma mem_book_buy {item : Item} {raw : List RawItemOrder} {o : Order}
    (h : o ∈ book_buy item raw) :
    ∃ e ∈ raw, e.platform = "pc" ∧ e.user.status = "ingame" ∧ e.order_type = "buy" ∧
      o = order_from_item_dict item e := by
  rw [book_buy_eq, List.mem_mergeSort] at h
  obtain ⟨e, he, rfl⟩ := List.mem_map.mp h
  rw [List.mem_filter] at he
  obtain ⟨he1, he2⟩ := he
  rw [List.mem_filter] at he1
  obtain ⟨he0, he1⟩ := he1
  simp only [Bool.and_eq_true, beq_iff_eq] at he1 he2
  exact ⟨e, he0, he1.1, he1.2, he2, rfl⟩

/-- Provenance of a `"sell"` bucket member. -/
lemma mem_book_sell {item : Item} {raw : List RawItemOrder} {o : Order}
    (h : o ∈ book_sell item raw) :
    ∃ e ∈ raw, e.platform = "pc" ∧ e.user.status = "ingame" ∧ e.order_type = "sell" ∧
      o = order_from_item_dict item e := by
  rw [book_sell_eq, List.mem_mergeSort] at h
  obtain ⟨e, he, rfl⟩ := List.mem_map.mp h
  rw [List.mem_filter] at he
  obtain ⟨he1, he2⟩ := he
  rw [List.mem_filter] at he1
  obtain ⟨he0, he1⟩ := he1
  simp only [Bool.and_eq_true, beq_iff_eq] at he1 he2
  exact ⟨e, he0, he1.1, he1.2, he2, rfl⟩

/-- The `"buy"` bucket is sorted by non-increasing price, most recent first
among equal prices. -/
lemma buy_bucket_sorted (item : Item) (raw : List RawItemOrder) :
    (book_buy item raw).Pairwise
      (fun a b => b.price ≤ a.price ∧ (a.price = b.price → b.last_update ≤ a.last_update)) := by
  rw [book_buy_eq]
  refine (List.sorted_mergeSort buy_le_trans buy_le_total _).imp ?_
  intro a b hab
  simp only [buy_le, decide_eq_true_eq] at hab
  exact ⟨by omega, fun h => by omega⟩

/-- The `"sell"` bucket is sorted by non-decreasing price, most recent
first among equal prices. -/
lemma sell_bucket_sorted (item : Item) (raw : List RawItemOrder) :
    (book_sell item raw).Pairwise
      (fun a b => a.price ≤ b.price ∧ (a.price = b.price → b.last_update ≤ a.last_update)) := by
  rw [book_sell_eq]
  refine (List.sorted_mergeSort sell_le_trans sell_le_total _).imp ?_
  intro a b hab
  simp only [sell_le, decide_eq_true_eq] at hab
  exact ⟨by omega, fun h => by omega⟩

/-- C1: every order in either bucket of `get_orders_for_item` comes from a
response entry with `platform = "pc"` and user status `"ingame"` and the
matching `order_type`; the `buy` bucket is sorted so price is
non-increasing with equal-price entries most-recent-first, and the `sell`
bucket is sorted so price is non-decreasing with the same tie-break. -/
theorem get_orders_for_item_filter_and_sort (item : Item) (raw : List RawItemOrder) :
    (∀ o ∈ book_buy item raw, ∃ e ∈ raw,
        e.platform = "pc" ∧ e.user.status = "ingame" ∧ e.order_type = "buy" ∧
          o = order_from_item_dict item e)
    ∧ (∀ o ∈ book_sell item raw, ∃ e ∈ raw,
        e.platform = "pc" ∧ e.user.status = "ingame" ∧ e.order_type = "sell" ∧
          o = order_from_item_dict item e)
    ∧ (book_buy item raw).Pairwise
        (fun a b => b.price ≤ a.price ∧ (a.price = b.price → b.last_update ≤ a.last_update))
    ∧ (book_sell item raw).Pairwise
        (fun a b => a.price ≤ b.price ∧ (a.price = b.price → b.last_update ≤ a.last_update)) :=
  ⟨fun _ h => mem_book_buy h, fun _ h => mem_book_sell h,
    buy_bucket_sorted item raw, sell_bucket_sorted item raw⟩

/-- The returned dict, as its two entries. -/
lemma get_orders_for_item_eq (item : Item) (raw : List RawItemOrder) :
    get_orders_for_item item raw =
      [("buy", book_buy item raw), ("sell", book_sell item raw)] := rfl

/-- C10: `get_orders_for_item` returns a dict with exactly the keys
`"buy"` and `"sell"`, and every order in either bucket carries the `Item`
passed as argument, not one rebuilt from the response payload. -/
theorem get_orders_for_item_keys_and_item (item : Item) (raw : List RawItemOrder) :
    (get_orders_for_item item raw).map Prod.fst = ["buy", "sell"]
    ∧ ∀ kv ∈ get_orders_for_item item raw, ∀ o ∈ kv.2, o.item = item := by
  refine ⟨rfl, ?_⟩
  intro kv hkv o ho
  rw [get_orders_for_item_eq] at hkv
  rcases List.mem_cons.mp hkv with h | h
  · subst h
    obtain ⟨e, _, _, _, _, rfl⟩ := mem_book_buy ho
    rfl
  · rcases List.mem_cons.mp h with h2 | h2
    · subst h2
      obtain ⟨e, _, _, _, _, rfl⟩ := mem_book_sell ho
      rfl
    · simp at h2
